import Mathlib

set_option maxHeartbeats 1000000

namespace AsyncSquare

/-- Two's complement wrap to the 32-bit `int` range: the arithmetic of the
C++ `int` type used by `calculate_square_async` (src/cpp_tutorial_102e5f.cpp). -/
def wrap32 (x : Int) : Int := (x + 2 ^ 31) % 2 ^ 32 - 2 ^ 31

/-- Line 24 of the source: `int result = number * number;`, in `int` arithmetic. -/
def square_int (number : Int) : Int := wrap32 (number * number)

/-- Thread identifiers: the main thread and the worker thread created by
`std::async(std::launch::async, ...)` at line 41. -/
inductive Tid
  | mainT
  | workerT
deriving DecidableEq

/-- The console lines the program can print, one constructor per `std::cout` /
`std::cerr` statement of the source (the data each line interpolates is a field). -/
inductive Line
  | mStart
  | mOther
  | mFinishedOther
  | mWait
  | mResult (r : Int)
  | mExn (msg : String)
  | mDone
  | wStart (n : Int)
  | wFinish (n r : Int)
deriving DecidableEq

/-- The exact text of each console line, copied from the source. -/
def Line.render : Line → String
  | .mStart => "Main thread: Starting the program."
  | .mOther => "Main thread: Doing other work while the calculation is in progress..."
  | .mFinishedOther => "Main thread: Finished doing other work."
  | .mWait => "Main thread: Waiting for the asynchronous calculation to finish and getting the result."
  | .mResult r => "Main thread: Asynchronous calculation result: " ++ toString r
  | .mExn msg => "Main thread: An exception occurred during asynchronous execution: " ++ msg
  | .mDone => "Main thread: Program finished."
  | .wStart n => "Worker thread: Starting calculation for " ++ toString n ++ "..."
  | .wFinish n r => "Worker thread: Calculation for " ++ toString n ++ " finished. Result: " ++ toString r

/-- A console event: a line on stdout tagged with the emitting thread, or a
line on stderr (the catch branch at line 61 writes to `std::cerr`). -/
inductive Event
  | out (t : Tid) (line : Line)
  | err (line : Line)
deriving DecidableEq

/-- The outcome stored in the future's shared state: the returned `int`, or the
exception the worker terminated with (identified by its `what()` string). -/
inductive Outcome
  | ok (r : Int)
  | error (msg : String)
deriving DecidableEq

/-- The outcome the worker produces for input `n`: `square_int n` on the normal
path; the injected `ComputationError` description when a fault is injected
into the simulated work (the generalized failure scenario of the spec). -/
def outcomeOf (n : Int) (fault : Option String) : Outcome :=
  match fault with
  | none => .ok (square_int n)
  | some msg => .error msg

/-- Program counter of the main thread, one position per statement of `main`
(lines 30-65 of the source). -/
inductive MPc
  | m0
  | m1
  | m2
  | m3
  | m4
  | m5
  | m6
  | m7ok (r : Int)
  | m7err (msg : String)
  | m8
  | m9
  | mdone
deriving DecidableEq

/-- How far the main thread has progressed, as a number. -/
def MPc.stage : MPc → Nat
  | .m0 => 0
  | .m1 => 1
  | .m2 => 2
  | .m3 => 3
  | .m4 => 4
  | .m5 => 5
  | .m6 => 6
  | .m7ok _ => 7
  | .m7err _ => 7
  | .m8 => 8
  | .m9 => 9
  | .mdone => 10

/-- Program counter of the worker thread: not yet created, then one position
per statement of `calculate_square_async` (lines 18-26), then finished. -/
inductive WPc
  | notStarted
  | w0
  | w1
  | w2
  | w3
  | wdone
deriving DecidableEq

/-- How far the worker thread has progressed, as a number. -/
def WPc.stage : WPc → Nat
  | .notStarted => 0
  | .w0 => 1
  | .w1 => 2
  | .w2 => 3
  | .w3 => 4
  | .wdone => 5

/-- The state of the future's shared result slot: no future yet (before the
`std::async` call), pending, holding the worker's outcome, or consumed by
the single `get()` call. -/
inductive Slot
  | noFuture
  | pending
  | ready (v : Outcome)
  | consumed
deriving DecidableEq

/-- A global state of the program: both program counters, the future slot, the
value main retrieved from `get()` (if any), the exit code (once `return 0`
ran), ghost counters of slot writes and reads, and the console trace. -/
structure St where
  mpc : MPc
  wpc : WPc
  slot : Slot
  retrieved : Option Outcome
  exitCode : Option Int
  writes : Nat
  reads : Nat
  trace : List Event
deriving DecidableEq

/-- The initial state: main at its first statement, no worker, no future. -/
def init : St :=
  { mpc := .m0, wpc := .notStarted, slot := .noFuture, retrieved := none,
    exitCode := none, writes := 0, reads := 0, trace := [] }

/-- Small-step relation of the program, labelled by the thread taking the step.
`n` is the argument passed to `calculate_square_async` (5 at line 41);
`fault` is `none` for the program as written and `some msg` for the spec's
generalized fault-injection scenario, where the simulated work (the sleep at
line 22) raises a `ComputationError` with description `msg`. -/
inductive Step (n : Int) (fault : Option String) : Tid → St → St → Prop
  | mPrintStart (s : St) (h : s.mpc = .m0) :
      Step n fault .mainT s
        { s with mpc := .m1, trace := s.trace ++ [.out .mainT .mStart] }
  | mLaunch (s : St) (h : s.mpc = .m1) :
      Step n fault .mainT s
        { s with mpc := .m2, wpc := .w0, slot := .pending }
  | mPrintOther (s : St) (h : s.mpc = .m2) :
      Step n fault .mainT s
        { s with mpc := .m3, trace := s.trace ++ [.out .mainT .mOther] }
  | mSleep (s : St) (h : s.mpc = .m3) :
      Step n fault .mainT s { s with mpc := .m4 }
  | mPrintFinishedOther (s : St) (h : s.mpc = .m4) :
      Step n fault .mainT s
        { s with mpc := .m5, trace := s.trace ++ [.out .mainT .mFinishedOther] }
  | mPrintWait (s : St) (h : s.mpc = .m5) :
      Step n fault .mainT s
        { s with mpc := .m6, trace := s.trace ++ [.out .mainT .mWait] }
  | mGetOk (s : St) (r : Int) (h : s.mpc = .m6) (hs : s.slot = .ready (.ok r)) :
      Step n fault .mainT s
        { s with mpc := .m7ok r, slot := .consumed, retrieved := some (.ok r),
                 reads := s.reads + 1 }
  | mGetErr (s : St) (msg : String) (h : s.mpc = .m6)
      (hs : s.slot = .ready (.error msg)) :
      Step n fault .mainT s
        { s with mpc := .m7err msg, slot := .consumed,
                 retrieved := some (.error msg), reads := s.reads + 1 }
  | mPrintResult (s : St) (r : Int) (h : s.mpc = .m7ok r) :
      Step n fault .mainT s
        { s with mpc := .m8, trace := s.trace ++ [.out .mainT (.mResult r)] }
  | mPrintExn (s : St) (msg : String) (h : s.mpc = .m7err msg) :
      Step n fault .mainT s
        { s with mpc := .m8, trace := s.trace ++ [.err (.mExn msg)] }
  | mPrintDone (s : St) (h : s.mpc = .m8) :
      Step n fault .mainT s
        { s with mpc := .m9, trace := s.trace ++ [.out .mainT .mDone] }
  | mReturn (s : St) (h : s.mpc = .m9) :
      Step n fault .mainT s { s with mpc := .mdone, exitCode := some 0 }
  | wPrintStart (s : St) (h : s.wpc = .w0) :
      Step n fault .workerT s
        { s with wpc := .w1, trace := s.trace ++ [.out .workerT (.wStart n)] }
  | wSleepOk (s : St) (h : s.wpc = .w1) (hf : fault = none) :
      Step n fault .workerT s { s with wpc := .w2 }
  | wSleepFault (s : St) (msg : String) (h : s.wpc = .w1)
      (hf : fault = some msg) :
      Step n fault .workerT s
        { s with wpc := .wdone, slot := .ready (.error msg),
                 writes := s.writes + 1 }
  | wPrintFinish (s : St) (h : s.wpc = .w2) :
      Step n fault .workerT s
        { s with wpc := .w3,
                 trace := s.trace ++ [.out .workerT (.wFinish n (square_int n))] }
  | wReturn (s : St) (h : s.wpc = .w3) :
      Step n fault .workerT s
        { s with wpc := .wdone, slot := .ready (.ok (square_int n)),
                 writes := s.writes + 1 }

/-- A step by either thread. -/
abbrev StepAny (n : Int) (fault : Option String) (s s' : St) : Prop :=
  ∃ t, Step n fault t s s'

/-- The states an execution can reach from the initial state. -/
abbrev Reachable (n : Int) (fault : Option String) (s : St) : Prop :=
  Relation.ReflTransGen (StepAny n fault) init s

/-- A state from which no thread can take a step. -/
def Terminal (n : Int) (fault : Option String) (s : St) : Prop :=
  ∀ s', ¬ StepAny n fault s s'

/-- The worker events emitted so far, as a function of the worker pc: the
start line is printed entering `w1`, the finish line entering `w3`; on the
fault path the finish line is never printed. -/
def wEmitted (n : Int) (fault : Option String) : WPc → List Event
  | .notStarted => []
  | .w0 => []
  | .w1 => [.out .workerT (.wStart n)]
  | .w2 => [.out .workerT (.wStart n)]
  | .w3 => [.out .workerT (.wStart n), .out .workerT (.wFinish n (square_int n))]
  | .wdone =>
      match fault with
      | none => [.out .workerT (.wStart n), .out .workerT (.wFinish n (square_int n))]
      | some _ => [.out .workerT (.wStart n)]

/-- Upper bound on the number of steps the program can still take. -/
def remaining (s : St) : Nat := (10 - s.mpc.stage) + (5 - s.wpc.stage)

/-- Inductive invariant of the reachable states: phase coherence between the
two program counters and the future slot, single write / single read of the
slot, which console lines are already in the trace, and the values carried
by the post-`get` states. -/
structure Inv (n : Int) (fault : Option String) (s : St) : Prop where
  cohNot : s.wpc = .notStarted → s.slot = .noFuture ∧ (s.mpc = .m0 ∨ s.mpc = .m1)
  cohRun : s.wpc = .w0 ∨ s.wpc = .w1 ∨ s.wpc = .w2 ∨ s.wpc = .w3 →
    s.slot = .pending
  cohDone : s.wpc = .wdone →
    s.slot = .ready (outcomeOf n fault) ∨ s.slot = .consumed
  notYet : s.mpc = .m0 ∨ s.mpc = .m1 → s.wpc = .notStarted
  consumedRead : s.slot = .consumed → s.retrieved ≠ none
  writesEq : s.writes = if s.wpc = .wdone then 1 else 0
  readsEq : s.reads = if s.retrieved = none then 0 else 1
  retrievedVal : ∀ v, s.retrieved = some v → v = outcomeOf n fault
  retrievedLate : s.retrieved ≠ none → s.wpc = .wdone
  retrievedStage : s.retrieved = none ↔ s.mpc.stage ≤ 6
  wTrace : (wEmitted n fault s.wpc).Sublist s.trace
  faultNoOk : ∀ msg, fault = some msg →
    (∀ r, s.mpc ≠ .m7ok r) ∧ (∀ r, Event.out .mainT (.mResult r) ∉ s.trace) ∧
    s.wpc ≠ .w2 ∧ s.wpc ≠ .w3
  okNoErr : fault = none →
    (∀ m, s.mpc ≠ .m7err m) ∧ (∀ m, Event.err (.mExn m) ∉ s.trace)
  resultPrinted : fault = none → 8 ≤ s.mpc.stage →
    Event.out .mainT (.mResult (square_int n)) ∈ s.trace
  exnPrinted : ∀ msg, fault = some msg → 8 ≤ s.mpc.stage →
    Event.err (.mExn msg) ∈ s.trace
  donePrinted : 9 ≤ s.mpc.stage → Event.out .mainT .mDone ∈ s.trace
  doneExit : s.mpc = .mdone → s.exitCode = some 0
  okVal : ∀ r, s.mpc = .m7ok r → fault = none ∧ r = square_int n
  errVal : ∀ m, s.mpc = .m7err m → fault = some m

/-- Terminal state of the run where the main thread runs to the `get()` call
first, then the worker runs to completion, then main finishes. -/
def finalOk (n : Int) : St :=
  { mpc := .mdone, wpc := .wdone, slot := .consumed,
    retrieved := some (.ok (square_int n)), exitCode := some 0,
    writes := 1, reads := 1,
    trace := [.out .mainT .mStart, .out .mainT .mOther,
              .out .mainT .mFinishedOther, .out .mainT .mWait,
              .out .workerT (.wStart n),
              .out .workerT (.wFinish n (square_int n)),
              .out .mainT (.mResult (square_int n)), .out .mainT .mDone] }

/-- Terminal state of the run where the worker runs to completion immediately
after launch, before the main thread's post-launch statements. -/
def finalOkB (n : Int) : St :=
  { mpc := .mdone, wpc := .wdone, slot := .consumed,
    retrieved := some (.ok (square_int n)), exitCode := some 0,
    writes := 1, reads := 1,
    trace := [.out .mainT .mStart, .out .workerT (.wStart n),
              .out .workerT (.wFinish n (square_int n)),
              .out .mainT .mOther, .out .mainT .mFinishedOther,
              .out .mainT .mWait,
              .out .mainT (.mResult (square_int n)), .out .mainT .mDone] }

/-- Terminal state of a fault-injected run: the worker's simulated work raises
a `ComputationError` with description `msg`; main catches it at `get()`. -/
def finalErr (n : Int) (msg : String) : St :=
  { mpc := .mdone, wpc := .wdone, slot := .consumed,
    retrieved := some (.error msg), exitCode := some 0,
    writes := 1, reads := 1,
    trace := [.out .mainT .mStart, .out .mainT .mOther,
              .out .mainT .mFinishedOther, .out .mainT .mWait,
              .out .workerT (.wStart n), .err (.mExn msg),
              .out .mainT .mDone] }

/-- A mid-run state in which the worker's start line was printed between two
of the main thread's post-launch lines: the two narrations interleave. -/
def midInterleaved : St :=
  { mpc := .m5, wpc := .w1, slot := .pending, retrieved := none,
    exitCode := none, writes := 0, reads := 0,
    trace := [.out .mainT .mStart, .out .mainT .mOther,
              .out .workerT (.wStart 5), .out .mainT .mFinishedOther] }

/-- The state just after `std::async` launched the worker, with the worker not
yet having taken a step. -/
def sAfterLaunch : St :=
  { mpc := .m2, wpc := .w0, slot := .pending, retrieved := none,
    exitCode := none, writes := 0, reads := 0,
    trace := [.out .mainT .mStart] }

/-- The state right after the worker printed its start line from
`sAfterLaunch`. -/
def sAfterStartPrint : St :=
  { mpc := .m2, wpc := .w1, slot := .pending, retrieved := none,
    exitCode := none, writes := 0, reads := 0,
    trace := [.out .mainT .mStart, .out .workerT (.wStart 5)] }

theorem sublist_snoc {l t : List Event} (e : Event) (h : l.Sublist t) :
    l.Sublist (t ++ [e]) :=
  h.trans (List.sublist_append_left t [e])

theorem inv_init (n : Int) (fault : Option String) : Inv n fault init := by
  constructor <;> intros <;> simp_all [init, wEmitted, MPc.stage]

theorem inv_step {n : Int} {fault : Option String} {s s' : St}
    (hi : Inv n fault s) (hstep : StepAny n fault s s') : Inv n fault s' := by
  obtain ⟨t, st⟩ := hstep
  obtain ⟨c1, c2, c3, c4, c5, c6, c7, c8, c9, c10, c11, c12, c13, c14, c15,
    c16, c17, c18, c19⟩ := hi
  cases st with
  | mPrintStart s h =>
    refine ⟨?_, c2, c3, ?_, c5, c6, c7, c8, c9, ?_, ?_, ?_, ?_, ?_, ?_, ?_, ?_, ?_, ?_⟩
    · intro hw; exact ⟨(c1 hw).1, Or.inr rfl⟩
    · intro _; exact c4 (Or.inl h)
    · exact iff_of_true (c10.mpr (by rw [h]; decide)) (by simp [MPc.stage])
    · exact sublist_snoc _ c11
    · intro msg hf
      obtain ⟨d1, d2, d3, d4⟩ := c12 msg hf
      refine ⟨?_, ?_, ?_, ?_⟩
      · intro r hr; simp at hr
      · intro r hr
        rcases List.mem_append.mp hr with hr2 | hr2
        · exact d2 r hr2
        · simp at hr2
      · exact d3
      · exact d4
    · intro hf
      obtain ⟨d1, d2⟩ := c13 hf
      refine ⟨?_, ?_⟩
      · intro m hm; simp at hm
      · intro m hm
        rcases List.mem_append.mp hm with hm2 | hm2
        · exact d2 m hm2
        · simp at hm2
    · intro _ hst; exact absurd hst (by simp [MPc.stage])
    · intro _ _ hst; exact absurd hst (by simp [MPc.stage])
    · intro hst; exact absurd hst (by simp [MPc.stage])
    · intro hm; simp at hm
    · intro r hr; simp at hr
    · intro m hm; simp at hm
  | mLaunch s h =>
    refine ⟨?_, ?_, ?_, ?_, ?_, ?_, c7, c8, ?_, ?_, ?_, ?_, ?_, ?_, ?_, ?_, ?_, ?_, ?_⟩
    · intro hw; simp at hw
    · intro _; rfl
    · intro hw; simp at hw
    · intro hm; rcases hm with hm | hm <;> simp at hm
    · intro hsl; simp at hsl
    · have hw := c4 (Or.inr h)
      rw [hw] at c6
      simpa using c6
    · intro hne; exact absurd (c10.mpr (by rw [h]; decide)) hne
    · exact iff_of_true (c10.mpr (by rw [h]; decide)) (by simp [MPc.stage])
    · exact List.nil_sublist _
    · intro msg hf
      obtain ⟨d1, d2, d3, d4⟩ := c12 msg hf
      refine ⟨?_, ?_, ?_, ?_⟩
      · intro r hr; simp at hr
      · exact d2
      · intro hw; simp at hw
      · intro hw; simp at hw
    · intro hf
      obtain ⟨d1, d2⟩ := c13 hf
      refine ⟨?_, ?_⟩
      · intro m hm; simp at hm
      · exact d2
    · intro _ hst; exact absurd hst (by simp [MPc.stage])
    · intro _ _ hst; exact absurd hst (by simp [MPc.stage])
    · intro hst; exact absurd hst (by simp [MPc.stage])
    · intro hm; simp at hm
    · intro r hr; simp at hr
    · intro m hm; simp at hm
  | mPrintOther s h =>
    refine ⟨?_, c2, c3, ?_, c5, c6, c7, c8, c9, ?_, ?_, ?_, ?_, ?_, ?_, ?_, ?_, ?_, ?_⟩
    · intro hw; rcases (c1 hw).2 with h2 | h2 <;> (rw [h] at h2; simp at h2)
    · intro hm; rcases hm with hm | hm <;> simp at hm
    · exact iff_of_true (c10.mpr (by rw [h]; decide)) (by simp [MPc.stage])
    · exact sublist_snoc _ c11
    · intro msg hf
      obtain ⟨d1, d2, d3, d4⟩ := c12 msg hf
      refine ⟨?_, ?_, ?_, ?_⟩
      · intro r hr; simp at hr
      · intro r hr
        rcases List.mem_append.mp hr with hr2 | hr2
        · exact d2 r hr2
        · simp at hr2
      · exact d3
      · exact d4
    · intro hf
      obtain ⟨d1, d2⟩ := c13 hf
      refine ⟨?_, ?_⟩
      · intro m hm; simp at hm
      · intro m hm
        rcases List.mem_append.mp hm with hm2 | hm2
        · exact d2 m hm2
        · simp at hm2
    · intro _ hst; exact absurd hst (by simp [MPc.stage])
    · intro _ _ hst; exact absurd hst (by simp [MPc.stage])
    · intro hst; exact absurd hst (by simp [MPc.stage])
    · intro hm; simp at hm
    · intro r hr; simp at hr
    · intro m hm; simp at hm
  | mSleep s h =>
    refine ⟨?_, c2, c3, ?_, c5, c6, c7, c8, c9, ?_, c11, ?_, ?_, ?_, ?_, ?_, ?_, ?_, ?_⟩
    · intro hw; rcases (c1 hw).2 with h2 | h2 <;> (rw [h] at h2; simp at h2)
    · intro hm; rcases hm with hm | hm <;> simp at hm
    · exact iff_of_true (c10.mpr (by rw [h]; decide)) (by simp [MPc.stage])
    · intro msg hf
      obtain ⟨d1, d2, d3, d4⟩ := c12 msg hf
      refine ⟨?_, ?_, ?_, ?_⟩
      · intro r hr; simp at hr
      · exact d2
      · exact d3
      · exact d4
    · intro hf
      obtain ⟨d1, d2⟩ := c13 hf
      refine ⟨?_, ?_⟩
      · intro m hm; simp at hm
      · exact d2
    · intro _ hst; exact absurd hst (by simp [MPc.stage])
    · intro _ _ hst; exact absurd hst (by simp [MPc.stage])
    · intro hst; exact absurd hst (by simp [MPc.stage])
    · intro hm; simp at hm
    · intro r hr; simp at hr
    · intro m hm; simp at hm
  | mPrintFinishedOther s h =>
    refine ⟨?_, c2, c3, ?_, c5, c6, c7, c8, c9, ?_, ?_, ?_, ?_, ?_, ?_, ?_, ?_, ?_, ?_⟩
    · intro hw; rcases (c1 hw).2 with h2 | h2 <;> (rw [h] at h2; simp at h2)
    · intro hm; rcases hm with hm | hm <;> simp at hm
    · exact iff_of_true (c10.mpr (by rw [h]; decide)) (by simp [MPc.stage])
    · exact sublist_snoc _ c11
    · intro msg hf
      obtain ⟨d1, d2, d3, d4⟩ := c12 msg hf
      refine ⟨?_, ?_, ?_, ?_⟩
      · intro r hr; simp at hr
      · intro r hr
        rcases List.mem_append.mp hr with hr2 | hr2
        · exact d2 r hr2
        · simp at hr2
      · exact d3
      · exact d4
    · intro hf
      obtain ⟨d1, d2⟩ := c13 hf
      refine ⟨?_, ?_⟩
      · intro m hm; simp at hm
      · intro m hm
        rcases List.mem_append.mp hm with hm2 | hm2
        · exact d2 m hm2
        · simp at hm2
    · intro _ hst; exact absurd hst (by simp [MPc.stage])
    · intro _ _ hst; exact absurd hst (by simp [MPc.stage])
    · intro hst; exact absurd hst (by simp [MPc.stage])
    · intro hm; simp at hm
    · intro r hr; simp at hr
    · intro m hm; simp at hm
  | mPrintWait s h =>
    refine ⟨?_, c2, c3, ?_, c5, c6, c7, c8, c9, ?_, ?_, ?_, ?_, ?_, ?_, ?_, ?_, ?_, ?_⟩
    · intro hw; rcases (c1 hw).2 with h2 | h2 <;> (rw [h] at h2; simp at h2)
    · intro hm; rcases hm with hm | hm <;> simp at hm
    · exact iff_of_true (c10.mpr (by rw [h]; decide)) (by simp [MPc.stage])
    · exact sublist_snoc _ c11
    · intro msg hf
      obtain ⟨d1, d2, d3, d4⟩ := c12 msg hf
      refine ⟨?_, ?_, ?_, ?_⟩
      · intro r hr; simp at hr
      · intro r hr
        rcases List.mem_append.mp hr with hr2 | hr2
        · exact d2 r hr2
        · simp at hr2
      · exact d3
      · exact d4
    · intro hf
      obtain ⟨d1, d2⟩ := c13 hf
      refine ⟨?_, ?_⟩
      · intro m hm; simp at hm
      · intro m hm
        rcases List.mem_append.mp hm with hm2 | hm2
        · exact d2 m hm2
        · simp at hm2
    · intro _ hst; exact absurd hst (by simp [MPc.stage])
    · intro _ _ hst; exact absurd hst (by simp [MPc.stage])
    · intro hst; exact absurd hst (by simp [MPc.stage])
    · intro hm; simp at hm
    · intro r hr; simp at hr
    · intro m hm; simp at hm
  | mGetOk s r h hs =>
    have hwd : s.wpc = .wdone := by
      cases hwc : s.wpc
      case notStarted => rw [(c1 hwc).1] at hs; simp at hs
      case w0 => rw [c2 (Or.inl hwc)] at hs; simp at hs
      case w1 => rw [c2 (Or.inr (Or.inl hwc))] at hs; simp at hs
      case w2 => rw [c2 (Or.inr (Or.inr (Or.inl hwc)))] at hs; simp at hs
      case w3 => rw [c2 (Or.inr (Or.inr (Or.inr hwc)))] at hs; simp at hs
      case wdone => rfl
    have hov : Outcome.ok r = outcomeOf n fault := by
      rcases c3 hwd with hsl | hsl
      · have h2 := hsl.symm.trans hs
        exact (Slot.ready.inj h2).symm
      · rw [hsl] at hs; simp at hs
    have hfr : fault = none ∧ r = square_int n := by
      cases hfc : fault with
      | none =>
        rw [hfc] at hov
        simp [outcomeOf] at hov
        exact ⟨rfl, hov⟩
      | some m =>
        rw [hfc] at hov
        simp [outcomeOf] at hov
    refine ⟨?_, ?_, ?_, ?_, ?_, c6, ?_, ?_, ?_, ?_, c11, ?_, ?_, ?_, ?_, ?_, ?_, ?_, ?_⟩
    · intro hw; exact absurd (hwd.symm.trans hw) (by decide)
    · intro hrun
      rcases hrun with hw | hw | hw | hw <;> exact absurd (hwd.symm.trans hw) (by decide)
    · intro _; exact Or.inr rfl
    · intro hm; rcases hm with hm | hm <;> simp at hm
    · intro _ hnone; simp at hnone
    · have hr0 : s.retrieved = none := c10.mpr (by rw [h]; decide)
      rw [hr0] at c7
      simp at c7
      simp [c7]
    · intro v hv; exact (Option.some.inj hv).symm.trans hov
    · intro _; exact hwd
    · exact iff_of_false (by simp) (by simp [MPc.stage])
    · intro msg hf; rw [hfr.1] at hf; simp at hf
    · intro hf
      obtain ⟨d1, d2⟩ := c13 hf
      refine ⟨?_, ?_⟩
      · intro m hm; simp at hm
      · exact d2
    · intro _ hst; exact absurd hst (by simp [MPc.stage])
    · intro _ _ hst; exact absurd hst (by simp [MPc.stage])
    · intro hst; exact absurd hst (by simp [MPc.stage])
    · intro hm; simp at hm
    · intro r2 hr2
      simp at hr2
      exact ⟨hfr.1, hr2.symm.trans hfr.2⟩
    · intro m hm; simp at hm
  | mGetErr s msg h hs =>
    have hwd : s.wpc = .wdone := by
      cases hwc : s.wpc
      case notStarted => rw [(c1 hwc).1] at hs; simp at hs
      case w0 => rw [c2 (Or.inl hwc)] at hs; simp at hs
      case w1 => rw [c2 (Or.inr (Or.inl hwc))] at hs; simp at hs
      case w2 => rw [c2 (Or.inr (Or.inr (Or.inl hwc)))] at hs; simp at hs
      case w3 => rw [c2 (Or.inr (Or.inr (Or.inr hwc)))] at hs; simp at hs
      case wdone => rfl
    have hov : Outcome.error msg = outcomeOf n fault := by
      rcases c3 hwd with hsl | hsl
      · have h2 := hsl.symm.trans hs
        exact (Slot.ready.inj h2).symm
      · rw [hsl] at hs; simp at hs
    have hfm : fault = some msg := by
      cases hfc : fault with
      | none =>
        rw [hfc] at hov
        simp [outcomeOf] at hov
      | some m =>
        rw [hfc] at hov
        simp [outcomeOf] at hov
        rw [hov]
    refine ⟨?_, ?_, ?_, ?_, ?_, c6, ?_, ?_, ?_, ?_, c11, ?_, ?_, ?_, ?_, ?_, ?_, ?_, ?_⟩
    · intro hw; exact absurd (hwd.symm.trans hw) (by decide)
    · intro hrun
      rcases hrun with hw | hw | hw | hw <;> exact absurd (hwd.symm.trans hw) (by decide)
    · intro _; exact Or.inr rfl
    · intro hm; rcases hm with hm | hm <;> simp at hm
    · intro _ hnone; simp at hnone
    · have hr0 : s.retrieved = none := c10.mpr (by rw [h]; decide)
      rw [hr0] at c7
      simp at c7
      simp [c7]
    · intro v hv; exact (Option.some.inj hv).symm.trans hov
    · intro _; exact hwd
    · exact iff_of_false (by simp) (by simp [MPc.stage])
    · intro msg2 hf
      obtain ⟨d1, d2, d3, d4⟩ := c12 msg2 hf
      refine ⟨?_, ?_, ?_, ?_⟩
      · intro r hr; simp at hr
      · exact d2
      · exact d3
      · exact d4
    · intro hf; rw [hf] at hfm; simp at hfm
    · intro _ hst; exact absurd hst (by simp [MPc.stage])
    · intro _ _ hst; exact absurd hst (by simp [MPc.stage])
    · intro hst; exact absurd hst (by simp [MPc.stage])
    · intro hm; simp at hm
    · intro r2 hr2; simp at hr2
    · intro m hm
      simp at hm
      rw [← hm]
      exact hfm
  | mPrintResult s r h =>
    have hfr := c18 r h
    refine ⟨?_, c2, c3, ?_, c5, c6, c7, c8, c9, ?_, ?_, ?_, ?_, ?_, ?_, ?_, ?_, ?_, ?_⟩
    · intro hw; rcases (c1 hw).2 with h2 | h2 <;> (rw [h] at h2; simp at h2)
    · intro hm; rcases hm with hm | hm <;> simp at hm
    · exact iff_of_false
        (fun hr0 => absurd (c10.mp hr0) (by rw [h]; simp [MPc.stage]))
        (by simp [MPc.stage])
    · exact sublist_snoc _ c11
    · intro msg hf; rw [hfr.1] at hf; simp at hf
    · intro hf
      obtain ⟨d1, d2⟩ := c13 hf
      refine ⟨?_, ?_⟩
      · intro m hm; simp at hm
      · intro m hm
        rcases List.mem_append.mp hm with hm2 | hm2
        · exact d2 m hm2
        · simp at hm2
    · intro hf hst
      exact List.mem_append.mpr (Or.inr (by simp [hfr.2]))
    · intro m hf hst; rw [hfr.1] at hf; simp at hf
    · intro hst; exact absurd hst (by simp [MPc.stage])
    · intro hm; simp at hm
    · intro r2 hr2; simp at hr2
    · intro m hm; simp at hm
  | mPrintExn s msg h =>
    have hfm := c19 msg h
    refine ⟨?_, c2, c3, ?_, c5, c6, c7, c8, c9, ?_, ?_, ?_, ?_, ?_, ?_, ?_, ?_, ?_, ?_⟩
    · intro hw; rcases (c1 hw).2 with h2 | h2 <;> (rw [h] at h2; simp at h2)
    · intro hm; rcases hm with hm | hm <;> simp at hm
    · exact iff_of_false
        (fun hr0 => absurd (c10.mp hr0) (by rw [h]; simp [MPc.stage]))
        (by simp [MPc.stage])
    · exact sublist_snoc _ c11
    · intro msg2 hf
      obtain ⟨d1, d2, d3, d4⟩ := c12 msg2 hf
      refine ⟨?_, ?_, ?_, ?_⟩
      · intro r hr; simp at hr
      · intro r hr
        rcases List.mem_append.mp hr with hr2 | hr2
        · exact d2 r hr2
        · simp at hr2
      · exact d3
      · exact d4
    · intro hf; rw [hf] at hfm; simp at hfm
    · intro hf hst; rw [hf] at hfm; simp at hfm
    · intro m hf hst
      have hm2 : m = msg := Option.some.inj (hf.symm.trans hfm)
      exact List.mem_append.mpr (Or.inr (by simp [hm2]))
    · intro hst; exact absurd hst (by simp [MPc.stage])
    · intro hm; simp at hm
    · intro r2 hr2; simp at hr2
    · intro m hm; simp at hm
  | mPrintDone s h =>
    refine ⟨?_, c2, c3, ?_, c5, c6, c7, c8, c9, ?_, ?_, ?_, ?_, ?_, ?_, ?_, ?_, ?_, ?_⟩
    · intro hw; rcases (c1 hw).2 with h2 | h2 <;> (rw [h] at h2; simp at h2)
    · intro hm; rcases hm with hm | hm <;> simp at hm
    · exact iff_of_false
        (fun hr0 => absurd (c10.mp hr0) (by rw [h]; simp [MPc.stage]))
        (by simp [MPc.stage])
    · exact sublist_snoc _ c11
    · intro msg hf
      obtain ⟨d1, d2, d3, d4⟩ := c12 msg hf
      refine ⟨?_, ?_, ?_, ?_⟩
      · intro r hr; simp at hr
      · intro r hr
        rcases List.mem_append.mp hr with hr2 | hr2
        · exact d2 r hr2
        · simp at hr2
      · exact d3
      · exact d4
    · intro hf
      obtain ⟨d1, d2⟩ := c13 hf
      refine ⟨?_, ?_⟩
      · intro m hm; simp at hm
      · intro m hm
        rcases List.mem_append.mp hm with hm2 | hm2
        · exact d2 m hm2
        · simp at hm2
    · intro hf hst; exact List.mem_append.mpr (Or.inl (c14 hf (by rw [h]; decide)))
    · intro m hf hst; exact List.mem_append.mpr (Or.inl (c15 m hf (by rw [h]; decide)))
    · intro _; exact List.mem_append.mpr (Or.inr (by simp))
    · intro hm; simp at hm
    · intro r2 hr2; simp at hr2
    · intro m hm; simp at hm
  | mReturn s h =>
    refine ⟨?_, c2, c3, ?_, c5, c6, c7, c8, c9, ?_, c11, ?_, ?_, ?_, ?_, ?_, ?_, ?_, ?_⟩
    · intro hw; rcases (c1 hw).2 with h2 | h2 <;> (rw [h] at h2; simp at h2)
    · intro hm; rcases hm with hm | hm <;> simp at hm
    · exact iff_of_false
        (fun hr0 => absurd (c10.mp hr0) (by rw [h]; simp [MPc.stage]))
        (by simp [MPc.stage])
    · intro msg hf
      obtain ⟨d1, d2, d3, d4⟩ := c12 msg hf
      refine ⟨?_, ?_, ?_, ?_⟩
      · intro r hr; simp at hr
      · exact d2
      · exact d3
      · exact d4
    · intro hf
      obtain ⟨d1, d2⟩ := c13 hf
      refine ⟨?_, ?_⟩
      · intro m hm; simp at hm
      · exact d2
    · intro hf hst; exact c14 hf (by rw [h]; decide)
    · intro m hf hst; exact c15 m hf (by rw [h]; decide)
    · intro _; exact c16 (by rw [h]; decide)
    · intro _; rfl
    · intro r2 hr2; simp at hr2
    · intro m hm; simp at hm
  | wPrintStart s h =>
    refine ⟨?_, ?_, ?_, ?_, c5, ?_, c7, c8, ?_, c10, ?_, ?_, ?_, ?_, ?_, ?_, c17, c18, c19⟩
    · intro hw; simp at hw
    · intro _; exact c2 (Or.inl h)
    · intro hw; simp at hw
    · intro hm; rw [c4 hm] at h; simp at h
    · rw [h] at c6; simpa using c6
    · intro hne; rw [c9 hne] at h; simp at h
    · exact List.sublist_append_right _ _
    · intro msg hf
      obtain ⟨d1, d2, d3, d4⟩ := c12 msg hf
      refine ⟨?_, ?_, ?_, ?_⟩
      · exact d1
      · intro r hr
        rcases List.mem_append.mp hr with hr2 | hr2
        · exact d2 r hr2
        · simp at hr2
      · intro hw; simp at hw
      · intro hw; simp at hw
    · intro hf
      obtain ⟨d1, d2⟩ := c13 hf
      refine ⟨?_, ?_⟩
      · exact d1
      · intro m hm
        rcases List.mem_append.mp hm with hm2 | hm2
        · exact d2 m hm2
        · simp at hm2
    · intro hf hst; exact List.mem_append.mpr (Or.inl (c14 hf hst))
    · intro m hf hst; exact List.mem_append.mpr (Or.inl (c15 m hf hst))
    · intro hst; exact List.mem_append.mpr (Or.inl (c16 hst))
  | wSleepOk s h hf =>
    refine ⟨?_, ?_, ?_, ?_, c5, ?_, c7, c8, ?_, c10, ?_, ?_, c13, c14, ?_, c16, c17, c18, c19⟩
    · intro hw; simp at hw
    · intro _; exact c2 (Or.inr (Or.inl h))
    · intro hw; simp at hw
    · intro hm; rw [c4 hm] at h; simp at h
    · rw [h] at c6; simpa using c6
    · intro hne; rw [c9 hne] at h; simp at h
    · rw [h] at c11; exact c11
    · intro msg hf2; rw [hf] at hf2; simp at hf2
    · intro m hf2 hst; rw [hf] at hf2; simp at hf2
  | wSleepFault s msg h hf =>
    refine ⟨?_, ?_, ?_, ?_, ?_, ?_, c7, c8, ?_, c10, ?_, ?_, ?_, ?_, ?_, c16, c17, c18, c19⟩
    · intro hw; simp at hw
    · intro hrun; rcases hrun with hw | hw | hw | hw <;> simp at hw
    · intro _; rw [hf]; exact Or.inl rfl
    · intro hm; rw [c4 hm] at h; simp at h
    · intro hsl; simp at hsl
    · rw [h] at c6
      simp at c6
      simp [c6]
    · intro _; rfl
    · rw [h] at c11
      rw [hf]
      exact c11
    · intro msg2 hf2
      obtain ⟨d1, d2, d3, d4⟩ := c12 msg2 hf2
      refine ⟨?_, ?_, ?_, ?_⟩
      · exact d1
      · exact d2
      · intro hw; simp at hw
      · intro hw; simp at hw
    · intro hf2; rw [hf2] at hf; simp at hf
    · intro hf2 hst; rw [hf2] at hf; simp at hf
    · intro m hf2 hst; exact c15 m hf2 hst
  | wPrintFinish s h =>
    refine ⟨?_, ?_, ?_, ?_, c5, ?_, c7, c8, ?_, c10, ?_, ?_, ?_, ?_, ?_, ?_, c17, c18, c19⟩
    · intro hw; simp at hw
    · intro _; exact c2 (Or.inr (Or.inr (Or.inl h)))
    · intro hw; simp at hw
    · intro hm; rw [c4 hm] at h; simp at h
    · rw [h] at c6; simpa using c6
    · intro hne; rw [c9 hne] at h; simp at h
    · rw [h] at c11
      exact c11.append (List.Sublist.refl _)
    · intro msg hf; exact absurd h ((c12 msg hf).2.2.1)
    · intro hf
      obtain ⟨d1, d2⟩ := c13 hf
      refine ⟨?_, ?_⟩
      · exact d1
      · intro m hm
        rcases List.mem_append.mp hm with hm2 | hm2
        · exact d2 m hm2
        · simp at hm2
    · intro hf hst; exact List.mem_append.mpr (Or.inl (c14 hf hst))
    · intro m hf hst; exact absurd h ((c12 m hf).2.2.1)
    · intro hst; exact List.mem_append.mpr (Or.inl (c16 hst))
  | wReturn s h =>
    have hfn : fault = none := by
      cases hfc : fault with
      | none => rfl
      | some m => exact absurd h ((c12 m hfc).2.2.2)
    refine ⟨?_, ?_, ?_, ?_, ?_, ?_, c7, c8, ?_, c10, ?_, ?_, c13, c14, ?_, c16, c17, c18, c19⟩
    · intro hw; simp at hw
    · intro hrun; rcases hrun with hw | hw | hw | hw <;> simp at hw
    · intro _; rw [hfn]; exact Or.inl rfl
    · intro hm; rw [c4 hm] at h; simp at h
    · intro hsl; simp at hsl
    · rw [h] at c6
      simp at c6
      simp [c6]
    · intro _; rfl
    · rw [h] at c11
      rw [hfn]
      exact c11
    · intro msg hf; rw [hfn] at hf; simp at hf
    · intro m hf hst; rw [hfn] at hf; simp at hf

theorem reachable_inv {n : Int} {fault : Option String} {s : St}
    (h : Reachable n fault s) : Inv n fault s := by
  induction h with
  | refl => exact inv_init n fault
  | tail _ hstep ih => exact inv_step ih hstep

theorem terminal_of_done {n : Int} {fault : Option String} {s : St}
    (hm : s.mpc = .mdone) (hw : s.wpc = .wdone) : Terminal n fault s := by
  intro s' hstep
  obtain ⟨t, st⟩ := hstep
  cases st <;> simp_all

theorem progress {n : Int} {fault : Option String} {s : St}
    (hr : Reachable n fault s) (hnd : ¬ (s.mpc = .mdone ∧ s.wpc = .wdone)) :
    ∃ s', StepAny n fault s s' := by
  have hi := reachable_inv hr
  by_cases hm : s.mpc = .mdone
  · have hw : s.wpc ≠ .wdone := fun hw => hnd ⟨hm, hw⟩
    cases hwc : s.wpc with
    | notStarted =>
      rcases (hi.cohNot hwc).2 with h2 | h2 <;>
        (rw [hm] at h2; exact absurd h2 (by decide))
    | w0 => exact ⟨_, .workerT, .wPrintStart s hwc⟩
    | w1 =>
      cases hfc : fault with
      | none => exact ⟨_, .workerT, .wSleepOk s hwc rfl⟩
      | some m => exact ⟨_, .workerT, .wSleepFault s m hwc rfl⟩
    | w2 => exact ⟨_, .workerT, .wPrintFinish s hwc⟩
    | w3 => exact ⟨_, .workerT, .wReturn s hwc⟩
    | wdone => exact absurd hwc hw
  · cases hmc : s.mpc with
    | m0 => exact ⟨_, .mainT, .mPrintStart s hmc⟩
    | m1 => exact ⟨_, .mainT, .mLaunch s hmc⟩
    | m2 => exact ⟨_, .mainT, .mPrintOther s hmc⟩
    | m3 => exact ⟨_, .mainT, .mSleep s hmc⟩
    | m4 => exact ⟨_, .mainT, .mPrintFinishedOther s hmc⟩
    | m5 => exact ⟨_, .mainT, .mPrintWait s hmc⟩
    | m6 =>
      cases hwc : s.wpc with
      | notStarted =>
        rcases (hi.cohNot hwc).2 with h2 | h2 <;>
          (rw [hmc] at h2; exact absurd h2 (by decide))
      | w0 => exact ⟨_, .workerT, .wPrintStart s hwc⟩
      | w1 =>
        cases hfc : fault with
        | none => exact ⟨_, .workerT, .wSleepOk s hwc rfl⟩
        | some m => exact ⟨_, .workerT, .wSleepFault s m hwc rfl⟩
      | w2 => exact ⟨_, .workerT, .wPrintFinish s hwc⟩
      | w3 => exact ⟨_, .workerT, .wReturn s hwc⟩
      | wdone =>
        rcases hi.cohDone hwc with hsl | hsl
        · cases hoc : outcomeOf n fault with
          | ok r => exact ⟨_, .mainT, .mGetOk s r hmc (by rw [hsl, hoc])⟩
          | error m => exact ⟨_, .mainT, .mGetErr s m hmc (by rw [hsl, hoc])⟩
        · have hc := hi.consumedRead hsl
          have h0 : s.retrieved = none := hi.retrievedStage.mpr (by rw [hmc]; decide)
          exact absurd h0 hc
    | m7ok r => exact ⟨_, .mainT, .mPrintResult s r hmc⟩
    | m7err m => exact ⟨_, .mainT, .mPrintExn s m hmc⟩
    | m8 => exact ⟨_, .mainT, .mPrintDone s hmc⟩
    | m9 => exact ⟨_, .mainT, .mReturn s hmc⟩
    | mdone => exact absurd hmc hm

theorem terminal_shape {n : Int} {fault : Option String} {s : St}
    (hr : Reachable n fault s) (ht : Terminal n fault s) :
    s.mpc = .mdone ∧ s.wpc = .wdone := by
  by_contra hnd
  obtain ⟨s', hstep⟩ := progress hr hnd
  exact ht s' hstep

theorem remaining_decreases {n : Int} {fault : Option String} {s s' : St}
    (hr : Reachable n fault s) (hstep : StepAny n fault s s') :
    remaining s' < remaining s := by
  have hi := reachable_inv hr
  obtain ⟨t, st⟩ := hstep
  cases st with
  | mPrintStart s h => simp [remaining, MPc.stage, h]
  | mLaunch s h =>
    have hw := hi.notYet (Or.inr h)
    simp [remaining, MPc.stage, WPc.stage, h, hw]
  | mPrintOther s h => simp [remaining, MPc.stage, h]
  | mSleep s h => simp [remaining, MPc.stage, h]
  | mPrintFinishedOther s h => simp [remaining, MPc.stage, h]
  | mPrintWait s h => simp [remaining, MPc.stage, h]
  | mGetOk s r h hs => simp [remaining, MPc.stage, h]
  | mGetErr s msg h hs => simp [remaining, MPc.stage, h]
  | mPrintResult s r h => simp [remaining, MPc.stage, h]
  | mPrintExn s msg h => simp [remaining, MPc.stage, h]
  | mPrintDone s h => simp [remaining, MPc.stage, h]
  | mReturn s h => simp [remaining, MPc.stage, h]
  | wPrintStart s h => simp [remaining, WPc.stage, h]
  | wSleepOk s h hf => simp [remaining, WPc.stage, h]
  | wSleepFault s msg h hf => simp [remaining, WPc.stage, h]
  | wPrintFinish s h => simp [remaining, WPc.stage, h]
  | wReturn s h => simp [remaining, WPc.stage, h]

theorem wrap32_eq_self {x : Int} (h1 : -(2 ^ 31) ≤ x) (h2 : x < 2 ^ 31) :
    wrap32 x = x := by
  have e31 : (2 : Int) ^ 31 = 2147483648 := by norm_num
  have e32 : (2 : Int) ^ 32 = 4294967296 := by norm_num
  unfold wrap32
  rw [e31, e32]
  rw [e31] at h1 h2
  omega

theorem wrap32_emod (x : Int) : wrap32 x % 2 ^ 32 = x % 2 ^ 32 := by
  have e31 : (2 : Int) ^ 31 = 2147483648 := by norm_num
  have e32 : (2 : Int) ^ 32 = 4294967296 := by norm_num
  unfold wrap32
  rw [e31, e32]
  omega

theorem wrap32_range (x : Int) : -(2 ^ 31) ≤ wrap32 x ∧ wrap32 x < 2 ^ 31 := by
  have e31 : (2 : Int) ^ 31 = 2147483648 := by norm_num
  have e32 : (2 : Int) ^ 32 = 4294967296 := by norm_num
  unfold wrap32
  rw [e31, e32]
  omega

theorem square_int_eq {n : Int} (h1 : 0 ≤ n) (h2 : n ≤ 46340) :
    square_int n = n * n := by
  have hb : n * n ≤ 46340 * 46340 := mul_le_mul h2 h2 h1 (by norm_num)
  have hnn : 0 ≤ n * n := mul_nonneg h1 h1
  unfold square_int
  apply wrap32_eq_self
  · have e31 : -((2 : Int) ^ 31) = -2147483648 := by norm_num
    rw [e31]; linarith
  · have e31 : ((2 : Int) ^ 31) = 2147483648 := by norm_num
    rw [e31]; linarith

theorem reachable_finalOk (n : Int) : Reachable n none (finalOk n) := by
  refine .head ⟨.mainT, .mPrintStart _ rfl⟩ ?_
  refine .head ⟨.mainT, .mLaunch _ rfl⟩ ?_
  refine .head ⟨.mainT, .mPrintOther _ rfl⟩ ?_
  refine .head ⟨.mainT, .mSleep _ rfl⟩ ?_
  refine .head ⟨.mainT, .mPrintFinishedOther _ rfl⟩ ?_
  refine .head ⟨.mainT, .mPrintWait _ rfl⟩ ?_
  refine .head ⟨.workerT, .wPrintStart _ rfl⟩ ?_
  refine .head ⟨.workerT, .wSleepOk _ rfl rfl⟩ ?_
  refine .head ⟨.workerT, .wPrintFinish _ rfl⟩ ?_
  refine .head ⟨.workerT, .wReturn _ rfl⟩ ?_
  refine .head ⟨.mainT, .mGetOk _ _ rfl rfl⟩ ?_
  refine .head ⟨.mainT, .mPrintResult _ _ rfl⟩ ?_
  refine .head ⟨.mainT, .mPrintDone _ rfl⟩ ?_
  refine .head ⟨.mainT, .mReturn _ rfl⟩ ?_
  exact .refl

theorem terminal_finalOk (n : Int) : Terminal n none (finalOk n) :=
  terminal_of_done rfl rfl

theorem reachable_finalOkB (n : Int) : Reachable n none (finalOkB n) := by
  refine .head ⟨.mainT, .mPrintStart _ rfl⟩ ?_
  refine .head ⟨.mainT, .mLaunch _ rfl⟩ ?_
  refine .head ⟨.workerT, .wPrintStart _ rfl⟩ ?_
  refine .head ⟨.workerT, .wSleepOk _ rfl rfl⟩ ?_
  refine .head ⟨.workerT, .wPrintFinish _ rfl⟩ ?_
  refine .head ⟨.workerT, .wReturn _ rfl⟩ ?_
  refine .head ⟨.mainT, .mPrintOther _ rfl⟩ ?_
  refine .head ⟨.mainT, .mSleep _ rfl⟩ ?_
  refine .head ⟨.mainT, .mPrintFinishedOther _ rfl⟩ ?_
  refine .head ⟨.mainT, .mPrintWait _ rfl⟩ ?_
  refine .head ⟨.mainT, .mGetOk _ _ rfl rfl⟩ ?_
  refine .head ⟨.mainT, .mPrintResult _ _ rfl⟩ ?_
  refine .head ⟨.mainT, .mPrintDone _ rfl⟩ ?_
  refine .head ⟨.mainT, .mReturn _ rfl⟩ ?_
  exact .refl

theorem terminal_finalOkB (n : Int) : Terminal n none (finalOkB n) :=
  terminal_of_done rfl rfl

theorem reachable_finalErr (n : Int) (msg : String) :
    Reachable n (some msg) (finalErr n msg) := by
  refine .head ⟨.mainT, .mPrintStart _ rfl⟩ ?_
  refine .head ⟨.mainT, .mLaunch _ rfl⟩ ?_
  refine .head ⟨.mainT, .mPrintOther _ rfl⟩ ?_
  refine .head ⟨.mainT, .mSleep _ rfl⟩ ?_
  refine .head ⟨.mainT, .mPrintFinishedOther _ rfl⟩ ?_
  refine .head ⟨.mainT, .mPrintWait _ rfl⟩ ?_
  refine .head ⟨.workerT, .wPrintStart _ rfl⟩ ?_
  refine .head ⟨.workerT, .wSleepFault _ _ rfl rfl⟩ ?_
  refine .head ⟨.mainT, .mGetErr _ _ rfl rfl⟩ ?_
  refine .head ⟨.mainT, .mPrintExn _ _ rfl⟩ ?_
  refine .head ⟨.mainT, .mPrintDone _ rfl⟩ ?_
  refine .head ⟨.mainT, .mReturn _ rfl⟩ ?_
  exact .refl

theorem terminal_finalErr (n : Int) (msg : String) :
    Terminal n (some msg) (finalErr n msg) :=
  terminal_of_done rfl rfl

theorem reachable_midInterleaved : Reachable 5 none midInterleaved := by
  refine .head ⟨.mainT, .mPrintStart _ rfl⟩ ?_
  refine .head ⟨.mainT, .mLaunch _ rfl⟩ ?_
  refine .head ⟨.mainT, .mPrintOther _ rfl⟩ ?_
  refine .head ⟨.workerT, .wPrintStart _ rfl⟩ ?_
  refine .head ⟨.mainT, .mSleep _ rfl⟩ ?_
  refine .head ⟨.mainT, .mPrintFinishedOther _ rfl⟩ ?_
  exact .refl

theorem terminal_retrieved_ne_none {n : Int} {fault : Option String} {s : St}
    (hr : Reachable n fault s) (ht : Terminal n fault s) :
    s.retrieved ≠ none := by
  intro h0
  have h1 := (reachable_inv hr).retrievedStage.mp h0
  rw [(terminal_shape hr ht).1] at h1
  simp [MPc.stage] at h1

theorem terminal_retrieved_eq {n : Int} {fault : Option String} {s : St}
    (hr : Reachable n fault s) (ht : Terminal n fault s) :
    s.retrieved = some (outcomeOf n fault) := by
  rcases ho : s.retrieved with _ | v
  · exact absurd ho (terminal_retrieved_ne_none hr ht)
  · rw [(reachable_inv hr).retrievedVal v ho]

/-- Claim C1, counterexample: the claim quantifies over every non-negative
integer `n`, but `calculate_square_async` computes in fixed-width `int`
arithmetic. At the non-negative input 65536 the complete run with a
succeeding worker ends with retrieval yielding 0, not 65536 * 65536. -/
theorem C1_counterexample :
    Reachable 65536 none (finalOk 65536) ∧ Terminal 65536 none (finalOk 65536) ∧
    (finalOk 65536).retrieved = some (.ok 0) ∧ (0 : Int) ≠ 65536 * 65536 :=
  ⟨reachable_finalOk 65536, terminal_finalOk 65536, by decide, by decide⟩

/-- Claim C1 (amended): for every non-negative integer `n` whose square fits
in `int` (0 ≤ n ≤ 46340), when the worker completes successfully, every
complete execution ends with blocking retrieval yielding `n * n`; in
particular for input 0 retrieval yields 0. -/
theorem C1_amended (n : Int) (h1 : 0 ≤ n) (h2 : n ≤ 46340) (s : St)
    (hr : Reachable n none s) (ht : Terminal n none s) :
    s.retrieved = some (.ok (n * n)) := by
  rw [terminal_retrieved_eq hr ht]
  simp [outcomeOf]
  exact square_int_eq h1 h2

/-- Witness for C1_amended at the spec's scenario input 0. -/
theorem C1_amended_witness : (finalOk 0).retrieved = some (.ok (0 * 0)) :=
  C1_amended 0 (by decide) (by decide) (finalOk 0) (reachable_finalOk 0)
    (terminal_finalOk 0)

/-- Claim C2: if the worker terminates abnormally with a ComputationError-like
failure described by `msg`, then in every complete execution retrieval
surfaces that failure instead of a numeric result (no result line is ever
printed), the caller catches it and prints a diagnostic containing the
failure's description, does not re-raise (execution still runs to the end
with exit code 0), and the final Program-finished line is printed. -/
theorem C2_fault_surfaces (n : Int) (msg : String) (s : St)
    (hr : Reachable n (some msg) s) (ht : Terminal n (some msg) s) :
    s.retrieved = some (.error msg) ∧
    (∀ r : Int, s.retrieved ≠ some (.ok r)) ∧
    Event.err (.mExn msg) ∈ s.trace ∧
    (∃ pre, (Line.mExn msg).render = pre ++ msg) ∧
    (∀ r : Int, Event.out .mainT (.mResult r) ∉ s.trace) ∧
    Event.out .mainT .mDone ∈ s.trace ∧
    s.exitCode = some 0 := by
  have hi := reachable_inv hr
  have hsh := terminal_shape hr ht
  have hrv : s.retrieved = some (.error msg) := by
    rw [terminal_retrieved_eq hr ht]
    rfl
  refine ⟨hrv, ?_, ?_, ⟨_, rfl⟩, ?_, ?_, ?_⟩
  · intro r hc
    rw [hrv] at hc
    simp at hc
  · exact hi.exnPrinted msg rfl (by rw [hsh.1]; decide)
  · exact (hi.faultNoOk msg rfl).2.1
  · exact hi.donePrinted (by rw [hsh.1]; decide)
  · exact hi.doneExit hsh.1

/-- Witness for C2_fault_surfaces: the explicit fault-injected run at input 5. -/
theorem C2_fault_surfaces_witness :
    (finalErr 5 "ComputationError").retrieved = some (.error "ComputationError") ∧
    Event.err (.mExn "ComputationError") ∈ (finalErr 5 "ComputationError").trace ∧
    (finalErr 5 "ComputationError").exitCode = some 0 := by
  have h := C2_fault_surfaces 5 "ComputationError" (finalErr 5 "ComputationError")
    (reachable_finalErr 5 "ComputationError") (terminal_finalErr 5 "ComputationError")
  exact ⟨h.1, h.2.2.1, h.2.2.2.2.2.2⟩

/-- Claim C3: in every reachable state of every execution, if the caller has
observed a retrieved value then the worker has already completed, and the
value is exactly the worker's outcome: retrieval never returns before the
worker's completion event. -/
theorem C3_retrieval_after_completion (n : Int) (fault : Option String) (s : St)
    (hr : Reachable n fault s) (v : Outcome) (ho : s.retrieved = some v) :
    s.wpc = .wdone ∧ v = outcomeOf n fault := by
  have hi := reachable_inv hr
  exact ⟨hi.retrievedLate (by rw [ho]; simp), hi.retrievedVal v ho⟩

/-- Witness for C3_retrieval_after_completion at the concrete run with input 5. -/
theorem C3_retrieval_after_completion_witness :
    (finalOk 5).wpc = .wdone ∧ Outcome.ok 25 = outcomeOf 5 none :=
  C3_retrieval_after_completion 5 none (finalOk 5) (reachable_finalOk 5)
    (Outcome.ok 25) (by decide)

/-- Claim C4: the launch is non-blocking. In every state where main is at the
launch statement the launch step is enabled whatever the worker state, and
in every state just after launch the caller's next statement is enabled
without any condition on the worker or the future slot; moreover there is an
execution in which the worker's start narration is printed strictly between
two of the caller's post-launch narration lines while the worker is not yet
complete. -/
theorem C4_launch_nonblocking :
    (∀ (n : Int) (fault : Option String) (s : St), s.mpc = .m1 →
      ∃ s', Step n fault .mainT s s' ∧ s'.mpc = .m2) ∧
    (∀ (n : Int) (fault : Option String) (s : St), s.mpc = .m2 →
      ∃ s', Step n fault .mainT s s' ∧ s'.mpc = .m3 ∧ s'.wpc = s.wpc ∧
        s'.slot = s.slot) ∧
    (∃ s : St, Reachable 5 none s ∧ s.wpc ≠ .wdone ∧
      s.trace = [.out .mainT .mStart, .out .mainT .mOther,
                 .out .workerT (.wStart 5), .out .mainT .mFinishedOther]) := by
  refine ⟨?_, ?_, ?_⟩
  · intro n fault s h
    exact ⟨_, .mLaunch s h, rfl⟩
  · intro n fault s h
    exact ⟨_, .mPrintOther s h, rfl, rfl, rfl⟩
  · exact ⟨midInterleaved, reachable_midInterleaved, by decide, rfl⟩

/-- Witness for C4_launch_nonblocking applied at concrete states. -/
theorem C4_launch_nonblocking_witness :
    (∃ s', Step 5 none .mainT { init with mpc := MPc.m1 } s' ∧ s'.mpc = .m2) ∧
    (∃ s', Step 5 none .mainT sAfterLaunch s' ∧ s'.mpc = .m3 ∧
      s'.wpc = sAfterLaunch.wpc ∧ s'.slot = sAfterLaunch.slot) :=
  ⟨C4_launch_nonblocking.1 5 none _ rfl,
   C4_launch_nonblocking.2.1 5 none _ rfl⟩

/-- Claim C5: in every complete execution of the program as written (input 5,
no fault), retrieval yields 25, and the worker narration line for starting
the calculation occurs in the console trace before the line announcing the
finished result; the two lines render exactly as the spec quotes them. -/
theorem C5_scenario_five (s : St) (hr : Reachable 5 none s)
    (ht : Terminal 5 none s) :
    s.retrieved = some (.ok 25) ∧
    [Event.out .workerT (.wStart 5),
     Event.out .workerT (.wFinish 5 25)].Sublist s.trace ∧
    (Line.wStart 5).render = "Worker thread: Starting calculation for 5..." ∧
    (Line.wFinish 5 25).render =
      "Worker thread: Calculation for 5 finished. Result: 25" := by
  have hi := reachable_inv hr
  have hsh := terminal_shape hr ht
  refine ⟨?_, ?_, by decide, by decide⟩
  · rw [terminal_retrieved_eq hr ht]
    decide
  · have hw := hi.wTrace
    rw [hsh.2] at hw
    have he : wEmitted 5 none .wdone =
        [Event.out .workerT (.wStart 5), Event.out .workerT (.wFinish 5 25)] := by
      decide
    rw [he] at hw
    exact hw

/-- Witness for C5_scenario_five at the concrete complete run. -/
theorem C5_scenario_five_witness :
    (finalOk 5).retrieved = some (.ok 25) ∧
    [Event.out .workerT (.wStart 5),
     Event.out .workerT (.wFinish 5 25)].Sublist (finalOk 5).trace := by
  have h := C5_scenario_five (finalOk 5) (reachable_finalOk 5) (terminal_finalOk 5)
  exact ⟨h.1, h.2.1⟩

/-- Claim C6: the one-shot result slot is written at most once and read at
most once in every reachable state, exactly once each in every complete
execution; the write is performed by the worker at its completion and the
read by the caller; and a read attempted before the slot is filled blocks:
no step from such a state advances main past the `get()` or changes the
retrieved value. -/
theorem C6_slot_once (n : Int) (fault : Option String) (s : St)
    (hr : Reachable n fault s) :
    s.writes ≤ 1 ∧ s.reads ≤ 1 ∧ s.reads ≤ s.writes ∧
    (Terminal n fault s → s.writes = 1 ∧ s.reads = 1) ∧
    (∀ t s', Step n fault t s s' → s'.writes ≠ s.writes →
      t = .workerT ∧ s'.wpc = .wdone) ∧
    (∀ t s', Step n fault t s s' → s'.reads ≠ s.reads → t = .mainT) ∧
    (∀ t s', Step n fault t s s' → s.mpc = .m6 → s.slot = .pending →
      s'.mpc = .m6 ∧ s'.retrieved = s.retrieved) := by
  have hi := reachable_inv hr
  refine ⟨?_, ?_, ?_, ?_, ?_, ?_, ?_⟩
  · rw [hi.writesEq]; split <;> decide
  · rw [hi.readsEq]; split <;> decide
  · rw [hi.writesEq, hi.readsEq]
    by_cases hn : s.retrieved = none
    · simp [hn]
    · have hw := hi.retrievedLate hn
      simp [hn, hw]
  · intro ht
    have hsh := terminal_shape hr ht
    have hne := terminal_retrieved_ne_none hr ht
    rw [hi.writesEq, hi.readsEq]
    simp [hsh.2, hne]
  · intro t s' st hw
    cases st <;> first | (exact absurd rfl hw) | (exact ⟨rfl, rfl⟩)
  · intro t s' st hrd
    cases st <;> first | (exact absurd rfl hrd) | (exact rfl)
  · intro t s' st h6 hp
    cases st with
    | mPrintStart s h => rw [h6] at h; simp at h
    | mLaunch s h => rw [h6] at h; simp at h
    | mPrintOther s h => rw [h6] at h; simp at h
    | mSleep s h => rw [h6] at h; simp at h
    | mPrintFinishedOther s h => rw [h6] at h; simp at h
    | mPrintWait s h => rw [h6] at h; simp at h
    | mGetOk s r h hs => rw [hp] at hs; simp at hs
    | mGetErr s msg h hs => rw [hp] at hs; simp at hs
    | mPrintResult s r h => rw [h6] at h; simp at h
    | mPrintExn s msg h => rw [h6] at h; simp at h
    | mPrintDone s h => rw [h6] at h; simp at h
    | mReturn s h => rw [h6] at h; simp at h
    | wPrintStart s h => exact ⟨h6, rfl⟩
    | wSleepOk s h hf => exact ⟨h6, rfl⟩
    | wSleepFault s msg h hf => exact ⟨h6, rfl⟩
    | wPrintFinish s h => exact ⟨h6, rfl⟩
    | wReturn s h => exact ⟨h6, rfl⟩

/-- Witness for C6_slot_once at the complete run with input 5. -/
theorem C6_slot_once_witness :
    (finalOk 5).writes ≤ 1 ∧ (finalOk 5).reads ≤ 1 :=
  ⟨(C6_slot_once 5 none (finalOk 5) (reachable_finalOk 5)).1,
   (C6_slot_once 5 none (finalOk 5) (reachable_finalOk 5)).2.1⟩

/-- Claim C7: each step of the worker routine leaves the caller's observable
state (main pc, retrieved value, exit code, read counter) unchanged; its
only effects are appending one of its two console narration lines to the
trace and, at its return, writing its computed value into the future slot. -/
theorem C7_worker_frame (n : Int) (s s' : St)
    (st : Step n none .workerT s s') :
    s'.mpc = s.mpc ∧ s'.retrieved = s.retrieved ∧ s'.exitCode = s.exitCode ∧
    s'.reads = s.reads ∧
    (s'.trace = s.trace ∨
      s'.trace = s.trace ++ [.out .workerT (.wStart n)] ∨
      s'.trace = s.trace ++ [.out .workerT (.wFinish n (square_int n))]) ∧
    (s'.slot = s.slot ∨ s'.slot = .ready (.ok (square_int n))) := by
  cases st with
  | wPrintStart s h => exact ⟨rfl, rfl, rfl, rfl, Or.inr (Or.inl rfl), Or.inl rfl⟩
  | wSleepOk s h hf => exact ⟨rfl, rfl, rfl, rfl, Or.inl rfl, Or.inl rfl⟩
  | wSleepFault s msg h hf => simp at hf
  | wPrintFinish s h => exact ⟨rfl, rfl, rfl, rfl, Or.inr (Or.inr rfl), Or.inl rfl⟩
  | wReturn s h => exact ⟨rfl, rfl, rfl, rfl, Or.inl rfl, Or.inr rfl⟩

/-- Witness for C7_worker_frame at the worker's first step after launch. -/
theorem C7_worker_frame_witness :
    sAfterStartPrint.mpc = sAfterLaunch.mpc ∧
    sAfterStartPrint.retrieved = sAfterLaunch.retrieved :=
  ⟨(C7_worker_frame 5 sAfterLaunch sAfterStartPrint (.wPrintStart _ rfl)).1,
   (C7_worker_frame 5 sAfterLaunch sAfterStartPrint (.wPrintStart _ rfl)).2.1⟩

/-- Claim C8: in the base scenario (input 5, no fault) the program always
reaches normal completion: every non-finished reachable state has an
enabled step, every step strictly decreases the remaining-work measure (so
every execution terminates), the exception branch is unreachable and no
stderr diagnostic is ever printed, and every complete execution ends with
exit code 0, result 25 retrieved, and the Program-finished line printed. -/
theorem C8_base_scenario :
    (∀ s : St, Reachable 5 none s → s.exitCode = none →
      ∃ s', StepAny 5 none s s') ∧
    (∀ s s' : St, Reachable 5 none s → StepAny 5 none s s' →
      remaining s' < remaining s) ∧
    (∀ s : St, Reachable 5 none s →
      (∀ m, s.mpc ≠ .m7err m) ∧ (∀ m, Event.err (.mExn m) ∉ s.trace)) ∧
    (∀ s : St, Reachable 5 none s → Terminal 5 none s →
      s.exitCode = some 0 ∧ s.retrieved = some (.ok 25) ∧
      Event.out .mainT .mDone ∈ s.trace) := by
  refine ⟨?_, ?_, ?_, ?_⟩
  · intro s hr he
    apply progress hr
    intro hd
    have h0 := (reachable_inv hr).doneExit hd.1
    rw [he] at h0
    simp at h0
  · intro s s' hr hstep
    exact remaining_decreases hr hstep
  · intro s hr
    exact (reachable_inv hr).okNoErr rfl
  · intro s hr ht
    have hi := reachable_inv hr
    have hsh := terminal_shape hr ht
    refine ⟨hi.doneExit hsh.1, ?_, hi.donePrinted (by rw [hsh.1]; decide)⟩
    rw [terminal_retrieved_eq hr ht]
    decide

/-- Witness for C8_base_scenario at the initial state and the complete run. -/
theorem C8_base_scenario_witness :
    (∃ s', StepAny 5 none init s') ∧
    ((finalOk 5).exitCode = some 0 ∧ (finalOk 5).retrieved = some (.ok 25) ∧
      Event.out .mainT .mDone ∈ (finalOk 5).trace) :=
  ⟨C8_base_scenario.1 init .refl rfl,
   C8_base_scenario.2.2.2 (finalOk 5) (reachable_finalOk 5) (terminal_finalOk 5)⟩

/-- Claim C9: for every machine integer `n`, including negative `n`,
`calculate_square_async` returns `n * n` computed in fixed-width `int`
arithmetic: the returned value is congruent to `n * n` modulo 2^32 and lies
in the signed 32-bit range (wrapping, not failing or saturating), and every
complete successful execution retrieves exactly that value. -/
theorem C9_wrapping (n : Int) :
    square_int n % 2 ^ 32 = (n * n) % 2 ^ 32 ∧
    -(2 ^ 31) ≤ square_int n ∧ square_int n < 2 ^ 31 ∧
    (∀ s : St, Reachable n none s → Terminal n none s →
      s.retrieved = some (.ok (square_int n))) := by
  refine ⟨wrap32_emod (n * n), (wrap32_range (n * n)).1,
    (wrap32_range (n * n)).2, ?_⟩
  intro s hr ht
  rw [terminal_retrieved_eq hr ht]
  rfl

/-- Witness for C9_wrapping at the negative, overflowing input -70000. -/
theorem C9_wrapping_witness :
    square_int (-70000) % 2 ^ 32 = ((-70000 : Int) * -70000) % 2 ^ 32 ∧
    (finalOk (-70000)).retrieved = some (.ok (square_int (-70000))) :=
  ⟨(C9_wrapping (-70000)).1,
   (C9_wrapping (-70000)).2.2.2 (finalOk (-70000)) (reachable_finalOk (-70000))
     (terminal_finalOk (-70000))⟩

/-- Claim C10: the worker's returned value is deterministic: whatever the
interleaving, any two executions with the same input and the same fault
configuration that have produced a retrieved value produced the same one. -/
theorem C10_deterministic (n : Int) (fault : Option String) (s1 s2 : St)
    (hr1 : Reachable n fault s1) (hr2 : Reachable n fault s2)
    (v1 v2 : Outcome) (h1 : s1.retrieved = some v1)
    (h2 : s2.retrieved = some v2) : v1 = v2 := by
  rw [(reachable_inv hr1).retrievedVal v1 h1,
    (reachable_inv hr2).retrievedVal v2 h2]

/-- Witness for C10_deterministic on two runs of input 5 with different
schedules (worker-last and worker-first). -/
theorem C10_deterministic_witness :
    (finalOk 5).retrieved = some (.ok 25) ∧
    (finalOkB 5).retrieved = some (.ok 25) ∧
    Outcome.ok 25 = Outcome.ok 25 :=
  ⟨by decide, by decide,
   C10_deterministic 5 none (finalOk 5) (finalOkB 5) (reachable_finalOk 5)
     (reachable_finalOkB 5) (.ok 25) (.ok 25) (by decide) (by decide)⟩

end AsyncSquare
